import Mathlib

/-!
Verification development for the filter-matching and text-to-filter
translation engine of the MASIV map-filtering backend (`backend/app.py`).

The embedding models:
* Python strings as `List Char` / `String` (ASCII behaviour of
  `str.lower`, `str.upper`, `str.strip`, `str.title`);
* Python `re` patterns as data (`RE`) interpreted by a fuelled
  backtracking matcher `mat` with Python's leftmost-first search,
  ordered alternation, greedy/lazy repetition, word boundaries and
  numbered captures;
* Python numbers (int and float alike) as exact rationals `ℚ`
  (float rounding is not modelled: the spec and claims use exact
  decimal constants such as 30.48 and 400000);
* dynamically typed JSON-ish values as `Val`
  (`None`/number/string/list; booleans and nested dicts fall outside
  the value grammar the claims exercise);
* a raising Python path as `Except Unit` (parser) or `Option` result
  (evaluator), and exception-swallowing `try/except` blocks as
  `Option`-valued coercions.
-/

namespace MasivFilters

/-- ASCII whitespace recognised by Python `str.strip` and the regex
class `\s` (the Unicode-only whitespace code points are outside the
modelled alphabet). -/
def isWs (c : Char) : Bool :=
  c == ' ' || c == '\t' || c == '\n' || c == '\r' || c == '\x0b' || c == '\x0c'

/-- ASCII decimal digit, the regex classes `\d` and `[0-9]`. -/
def isDigitC (c : Char) : Bool :=
  '0' ≤ c && c ≤ '9'

/-- Regex word character `\w` (ASCII): letter, digit or underscore. -/
def isWordC (c : Char) : Bool :=
  ('a' ≤ c && c ≤ 'z') || ('A' ≤ c && c ≤ 'Z') || isDigitC c || c == '_'

/-- ASCII lower-case letter, the regex class `[a-z]`. -/
def isLowerC (c : Char) : Bool :=
  'a' ≤ c && c ≤ 'z'

/-- ASCII upper-case letter, the regex class `[A-Z]`. -/
def isUpperC (c : Char) : Bool :=
  'A' ≤ c && c ≤ 'Z'

/-- Python `str.strip()` on a character list: drop whitespace at both ends. -/
def stripL (l : List Char) : List Char :=
  ((l.dropWhile isWs).reverse.dropWhile isWs).reverse

/-- Python `str.lower()` (ASCII case mapping). -/
def lowerL (l : List Char) : List Char :=
  l.map Char.toLower

/-- Python `str.title()`: upper-case every cased character that follows a
non-cased one, lower-case the rest.  The boolean argument records whether
the previous character was cased (a letter). -/
def titleGo : Bool → List Char → List Char
  | _, [] => []
  | prevCased, c :: rest =>
      (if prevCased then c.toLower else c.toUpper) :: titleGo c.isAlpha rest

/-- Python `str.title()` on a character list. -/
def titleL (l : List Char) : List Char :=
  titleGo false l

/-- The apostrophe character (written by code point to keep the source
printable). -/
def aposChar : Char := Char.ofNat 39

/-! ## A small backtracking regex engine

`RE` is a direct data representation of the Python `re` patterns used by
the parser.  `mat` interprets it in continuation-passing style with the
same strategy CPython's `sre` uses on these patterns: alternatives are
tried in written order, repetitions are greedy unless marked lazy, and
the whole matcher backtracks on failure.  `fuel` bounds the recursion
depth; every pattern in this file consumes at least one character per
repetition step, so the generous fuel used below is never exhausted. -/

inductive RE where
  | eps
  | cls (p : Char → Bool)
  | seq (a b : RE)
  | alt (a b : RE)
  | rep (a : RE) (lo : Nat) (hi : Option Nat) (isLazy : Bool)
  | grp (i : Nat) (a : RE)
  | wb
  | eos

/-- Numbered captures: group index paired with the captured characters.
Later captures are consed on the front, so a lookup finds the most
recent capture of a group, as Python's `Match.group` does. -/
abbrev Caps := List (Nat × List Char)

/-- Python `\b`: true when exactly one of (previous character, next
character) is a word character; string edges count as non-word. -/
def wordBoundary (prev : Option Char) (s : List Char) : Bool :=
  let a := match prev with | some c => isWordC c | none => false
  let b := match s with | c :: _ => isWordC c | [] => false
  a != b

/-- The backtracking matcher.  `mat fuel r s prev cp k` tries to match
`r` at the start of `s` (with `prev` the character just before `s`, for
word boundaries), extending captures `cp`, and calls the continuation
`k` with the rest of the input on success.  Returns the first success in
Python's backtracking order, or `none`. -/
def mat {β : Type} : Nat → RE → List Char → Option Char → Caps →
    (List Char → Option Char → Caps → Option β) → Option β
  | 0, _, _, _, _, _ => none
  | fuel + 1, r, s, prev, cp, k =>
    match r with
    | .eps => k s prev cp
    | .cls p =>
        match s with
        | [] => none
        | c :: rest => if p c then k rest (some c) cp else none
    | .seq a b =>
        mat fuel a s prev cp (fun s2 p2 c2 => mat fuel b s2 p2 c2 k)
    | .alt a b =>
        match mat fuel a s prev cp k with
        | some res => some res
        | none => mat fuel b s prev cp k
    | .grp i a =>
        mat fuel a s prev cp (fun s2 p2 c2 =>
          k s2 p2 ((i, s.take (s.length - s2.length)) :: c2))
    | .wb => if wordBoundary prev s then k s prev cp else none
    | .eos =>
        match s with
        | [] => k s prev cp
        | _ => none
    | .rep a lo hi isLazy =>
        match lo with
        | lo2 + 1 =>
            mat fuel a s prev cp (fun s2 p2 c2 =>
              mat fuel (.rep a lo2 (hi.map (· - 1)) isLazy) s2 p2 c2 k)
        | 0 =>
            match hi with
            | some 0 => k s prev cp
            | _ =>
                if isLazy then
                  match k s prev cp with
                  | some res => some res
                  | none =>
                      mat fuel a s prev cp (fun s2 p2 c2 =>
                        mat fuel (.rep a 0 (hi.map (· - 1)) isLazy) s2 p2 c2 k)
                else
                  match mat fuel a s prev cp (fun s2 p2 c2 =>
                      mat fuel (.rep a 0 (hi.map (· - 1)) isLazy) s2 p2 c2 k) with
                  | some res => some res
                  | none => k s prev cp

/-- Fuel that is ample for every pattern in this file (recursion depth is
bounded by pattern size plus the number of repetition steps, each of
which consumes input). -/
def fuelFor (s : List Char) : Nat :=
  8 * s.length + 200

/-- Python `re.match(r, s)`: anchored at the start of `s`; returns the
captures on success. -/
def reMatch (r : RE) (s : List Char) : Option Caps :=
  mat (fuelFor s) r s none [] (fun _ _ cp => some cp)

/-- `re.match` truthiness (used for the zoning token tests, whose
patterns end in `$`, modelled by `RE.eos`). -/
def tokMatch (r : RE) (s : List Char) : Bool :=
  (reMatch r s).isSome

/-- Python `re.search`: try a match at each position from the left;
`prev` carries the character before the current position for `\b`. -/
def searchGo (fuel : Nat) (r : RE) : Option Char → List Char → Option Caps
  | prev, s =>
    match mat fuel r s prev [] (fun _ _ cp => some cp) with
    | some cp => some cp
    | none =>
        match s with
        | [] => none
        | c :: s2 => searchGo fuel r (some c) s2

/-- Python `re.search(r, s)`, returning the captures of the leftmost
match. -/
def reSearch (r : RE) (s : List Char) : Option Caps :=
  searchGo (fuelFor s) r none s

/-- Leftmost match decomposed as (prefix, matched, rest); used by
`re.split`. -/
def searchParts (fuel : Nat) (r : RE) :
    Option Char → List Char → List Char → Option (List Char × List Char × List Char)
  | prev, s, preRev =>
    match mat fuel r s prev [] (fun rest _ _ => some rest) with
    | some rest =>
        some (preRev.reverse, s.take (s.length - rest.length), rest)
    | none =>
        match s with
        | [] => none
        | c :: s2 => searchParts fuel r (some c) s2 (c :: preRev)

/-- Python `re.split` driver.  Every separator pattern used in this file
matches at least one character, so the `[]`-matched guard is dead code
kept only for totality. -/
def splitGo (fuel : Nat) (r : RE) (prev : Option Char) (s : List Char) :
    List (List Char) :=
  match fuel with
  | 0 => [s]
  | f + 1 =>
    match searchParts (fuelFor s) r prev s [] with
    | none => [s]
    | some (pre, matched, rest) =>
        match matched.getLast? with
        | none => [s]
        | some c => pre :: splitGo f r (some c) rest

/-- Python `re.split(r, s)` (no capturing groups in the separator). -/
def pySplit (r : RE) (s : List Char) : List (List Char) :=
  splitGo (s.length + 1) r none s

/-- `Match.group(i)`: most recent capture of group `i`, `none` when the
group did not participate in the match. -/
def capL (cp : Caps) (i : Nat) : Option (List Char) :=
  (cp.find? (fun p => p.1 == i)).map (·.2)

/-- `re.search` followed by `Match.group(i)`. -/
def groupOf (r : RE) (i : Nat) (s : List Char) : Option (List Char) :=
  (reSearch r s).bind (fun cp => capL cp i)

/-- `re.match` followed by `Match.group(i)`. -/
def matchGroup (r : RE) (i : Nat) (s : List Char) : Option (List Char) :=
  (reMatch r s).bind (fun cp => capL cp i)

/-! ### Pattern constructors -/

/-- Single literal character. -/
def chr (c : Char) : RE := RE.cls (fun x => x == c)

/-- Case-sensitive literal string. -/
def litS (s : String) : RE :=
  s.data.foldr (fun c r => RE.seq (chr c) r) RE.eps

/-- Case-insensitive literal (pattern characters written lower-case),
for the `re.I` pattern of `_parse_height_to_m`. -/
def litI (s : String) : RE :=
  s.data.foldr (fun c r => RE.seq (RE.cls (fun x => x.toLower == c)) r) RE.eps

/-- Ordered alternation `r₁|r₂|…` (first alternative preferred). -/
def altsL : List RE → RE
  | [] => RE.eps
  | [r] => r
  | r :: rs => RE.alt r (altsL rs)

def star (r : RE) : RE := RE.rep r 0 none false
def plus (r : RE) : RE := RE.rep r 1 none false
def opt (r : RE) : RE := RE.rep r 0 (some 1) false
def repn (r : RE) (lo hi : Nat) : RE := RE.rep r lo (some hi) false

def wsC : RE := RE.cls isWs
def digitC : RE := RE.cls isDigitC

/-! ### The concrete patterns of `backend/app.py`

Each definition transcribes one regex literal from the source, in the
same alternative order (which Python's engine honours). -/

/-- Characters of the two zoning block classes (identical sets):
a–z, 0–9, slash, hyphen, comma, space. -/
def zBlockChar (c : Char) : Bool :=
  isLowerC c || isDigitC c || c == '/' || c == '-' || c == ',' || c == ' '

/-- `(?:zoning|zone|district)s?\s+([a-z0-9/\-, ]+)` -/
def zoningKeyRE : RE :=
  .seq (altsL [litS "zoning", litS "zone", litS "district"])
    (.seq (opt (chr 's'))
      (.seq (plus wsC) (.grp 1 (plus (RE.cls zBlockChar)))))

/-- `\bin\s+(...)`, the group being one-or-more zoning block
characters. -/
def inRE : RE :=
  .seq .wb (.seq (litS "in")
    (.seq (plus wsC) (.grp 1 (plus (RE.cls zBlockChar)))))

/-- `\bcommunity|neighbou?rhood\b` (alternation binds loosest, exactly as
in the source). -/
def commWordRE : RE :=
  .alt (.seq .wb (litS "community"))
    (.seq (litS "neighbo") (.seq (opt (chr 'u')) (.seq (litS "rhood") .wb)))

/-- Separator class `[,\s/]`. -/
def sepChar (c : Char) : Bool :=
  c == ',' || isWs c || c == '/'

/-- `[,\s/]+|(?:\bor\b)|(?:\band\b)` (the `re.split` separator). -/
def splitSepRE : RE :=
  altsL [plus (RE.cls sepChar),
    .seq .wb (.seq (litS "or") .wb),
    .seq .wb (.seq (litS "and") .wb)]

/-- Class `[A-Z0-9]`. -/
def upDigChar (c : Char) : Bool :=
  isUpperC c || isDigitC c

/-- `^[A-Z]{1,3}(?:-[A-Z0-9]{1,4})+$` -/
def tokHyphRE : RE :=
  .seq (repn (RE.cls isUpperC) 1 3)
    (.seq (plus (.seq (chr '-') (repn (RE.cls upDigChar) 1 4))) .eos)

/-- `^[A-Z]{1,3}\d?$` -/
def tokDigRE : RE :=
  .seq (repn (RE.cls isUpperC) 1 3) (.seq (opt digitC) .eos)

/-- `^[A-Z]{1,3}$` -/
def tokBareRE : RE :=
  .seq (repn (RE.cls isUpperC) 1 3) .eos

/-- Money-amount class `[\d,\.]`. -/
def moneyChar (c : Char) : Bool :=
  isDigitC c || c == ',' || c == '.'

/-- Suffix class `[kKmM]`. -/
def kmChar (c : Char) : Bool :=
  c == 'k' || c == 'K' || c == 'm' || c == 'M'

/-- The captured amount `[0-9][\d,\.]*\s*[kKmM]?` of the three
assessed-value search patterns. -/
def moneyAmtRE : RE :=
  .seq digitC (.seq (star (RE.cls moneyChar))
    (.seq (star wsC) (opt (RE.cls kmChar))))

/-- `(?:less than|under|below)\s+\$?\s*([0-9][\d,\.]*\s*[kKmM]?)` -/
def ltMoneyRE : RE :=
  .seq (altsL [litS "less than", litS "under", litS "below"])
    (.seq (plus wsC) (.seq (opt (chr '$'))
      (.seq (star wsC) (.grp 1 moneyAmtRE))))

/-- `(?:greater than|over|above)\s+\$?\s*([0-9][\d,\.]*\s*[kKmM]?)` -/
def gtMoneyRE : RE :=
  .seq (altsL [litS "greater than", litS "over", litS "above"])
    (.seq (plus wsC) (.seq (opt (chr '$'))
      (.seq (star wsC) (.grp 1 moneyAmtRE))))

/-- `between\s+\$?\s*(amt)\s+and\s+\$?\s*(amt)` with the amount pattern
above in groups 1 and 2. -/
def betweenRE : RE :=
  .seq (litS "between") (.seq (plus wsC) (.seq (opt (chr '$'))
    (.seq (star wsC) (.seq (.grp 1 moneyAmtRE)
      (.seq (plus wsC) (.seq (litS "and") (.seq (plus wsC)
        (.seq (opt (chr '$')) (.seq (star wsC) (.grp 2 moneyAmtRE))))))))))

/-- Class `[.,]` (thousands separators of `_parse_money`). -/
def dotCommaChar (c : Char) : Bool :=
  c == '.' || c == ','

/-- First alternative of `_parse_money`'s group:
`[0-9]+(?:[.,][0-9]{3})*(?:\.[0-9]+)?`. -/
def moneyAlt1 : RE :=
  .seq (plus digitC)
    (.seq (star (.seq (RE.cls dotCommaChar) (repn digitC 3 3)))
      (opt (.seq (chr '.') (plus digitC))))

/-- Second alternative `[0-9]*\.?[0-9]+`. -/
def moneyAlt2 : RE :=
  .seq (star digitC) (.seq (opt (chr '.')) (plus digitC))

/-- `_parse_money`'s anchored pattern
`\$?\s*([0-9]+(?:[.,][0-9]{3})*(?:\.[0-9]+)?|[0-9]*\.?[0-9]+)\s*([kKmM]?)`. -/
def moneyRE : RE :=
  .seq (opt (chr '$')) (.seq (star wsC)
    (.seq (.grp 1 (.alt moneyAlt1 moneyAlt2))
      (.seq (star wsC) (.grp 2 (opt (RE.cls kmChar))))))

/-- Class `[0-9\.]`. -/
def digitDotChar (c : Char) : Bool :=
  isDigitC c || c == '.'

/-- Unit alternation `(ft|feet|foot|m|meter|metre|meters|metres)` of the
explicit-unit height search patterns, in source order. -/
def heightUnitAlts : RE :=
  altsL [litS "ft", litS "feet", litS "foot", litS "m",
    litS "meter", litS "metre", litS "meters", litS "metres"]

/-- `(?:over|greater than|above)\s+([0-9\.]+)\s*(ft|feet|foot|m|meter|metre|meters|metres)\b` -/
def heightGtRE : RE :=
  .seq (altsL [litS "over", litS "greater than", litS "above"])
    (.seq (plus wsC) (.seq (.grp 1 (plus (RE.cls digitDotChar)))
      (.seq (star wsC) (.seq (.grp 2 heightUnitAlts) .wb))))

/-- `(?:under|less than|below)\s+([0-9\.]+)\s*(ft|feet|foot|m|meter|metre|meters|metres)\b` -/
def heightLtRE : RE :=
  .seq (altsL [litS "under", litS "less than", litS "below"])
    (.seq (plus wsC) (.seq (.grp 1 (plus (RE.cls digitDotChar)))
      (.seq (star wsC) (.seq (.grp 2 heightUnitAlts) .wb))))

/-- `(?:floors?|storeys?|stories?)` -/
def floorsWordRE : RE :=
  altsL [.seq (litS "floor") (opt (chr 's')),
    .seq (litS "storey") (opt (chr 's')),
    .seq (litS "storie") (opt (chr 's'))]

/-- `(?:over|greater than|above)\s+([0-9]+)\s*(?:floors?|storeys?|stories?)` -/
def floorsGtRE : RE :=
  .seq (altsL [litS "over", litS "greater than", litS "above"])
    (.seq (plus wsC) (.seq (.grp 1 (plus digitC))
      (.seq (star wsC) floorsWordRE)))

/-- `(?:under|less than|below)\s+([0-9]+)\s*(?:floors?|storeys?|stories?)` -/
def floorsLtRE : RE :=
  .seq (altsL [litS "under", litS "less than", litS "below"])
    (.seq (plus wsC) (.seq (.grp 1 (plus digitC))
      (.seq (star wsC) floorsWordRE)))

/-- `([12][0-9]{3})` -/
def yearNumRE : RE :=
  .grp 1 (.seq (RE.cls (fun c => c == '1' || c == '2')) (repn digitC 3 3))

/-- `(?:built|year)\s+(?:after|since)\s+([12][0-9]{3})` -/
def yearGtRE : RE :=
  .seq (altsL [litS "built", litS "year"])
    (.seq (plus wsC) (.seq (altsL [litS "after", litS "since"])
      (.seq (plus wsC) yearNumRE)))

/-- `(?:built|year)\s+(?:before|until|prior to)\s+([12][0-9]{3})` -/
def yearLtRE : RE :=
  .seq (altsL [litS "built", litS "year"])
    (.seq (plus wsC) (.seq (altsL [litS "before", litS "until", litS "prior to"])
      (.seq (plus wsC) yearNumRE)))

/-- Community-name class `[a-z \-']`. -/
def nameChar (c : Char) : Bool :=
  isLowerC c || c == ' ' || c == '-' || c == aposChar

/-- `in\s+([a-z][a-z \-']+?)\s+(?:community|neighbou?rhood)\b` (note the
lazy `+?`). -/
def commRE : RE :=
  .seq (litS "in") (.seq (plus wsC)
    (.seq (.grp 1 (.seq (RE.cls isLowerC) (RE.rep (RE.cls nameChar) 1 none true)))
      (.seq (plus wsC)
        (.seq (altsL [litS "community",
          .seq (litS "neighbo") (.seq (opt (chr 'u')) (litS "rhood"))]) .wb))))

/-- `_parse_height_to_m`'s anchored, case-insensitive pattern
`([0-9]*\.?[0-9]+)\s*(m|meter|meters|metre|metres|ft|foot|feet)?`. -/
def heightValUnitRE : RE :=
  .seq (.grp 1 (.seq (star digitC) (.seq (opt (chr '.')) (plus digitC))))
    (.seq (star wsC)
      (opt (.grp 2 (altsL [litI "m", litI "meter", litI "meters",
        litI "metre", litI "metres", litI "ft", litI "foot", litI "feet"]))))

/-! ## Dynamically typed values

`Val` models the JSON-shaped Python values that flow through the filter
pipeline: `None`, numbers (int and float alike, as exact rationals),
strings, and lists.  Booleans and nested dicts are outside the value
grammar the engine's claims exercise. -/

inductive Val where
  | none
  | num (q : ℚ)
  | str (s : String)
  | list (l : List Val)

mutual

/-- Decidable equality on `Val` (written by hand: `Val` nests through
`List`). -/
def Val.decEqV : (a b : Val) → Decidable (a = b)
  | .none, .none => isTrue rfl
  | .none, .num _ => isFalse (fun h => Val.noConfusion h)
  | .none, .str _ => isFalse (fun h => Val.noConfusion h)
  | .none, .list _ => isFalse (fun h => Val.noConfusion h)
  | .num _, .none => isFalse (fun h => Val.noConfusion h)
  | .num a, .num b =>
      match decEq a b with
      | isTrue h => isTrue (by rw [h])
      | isFalse h => isFalse (fun hh => h (Val.noConfusion hh id))
  | .num _, .str _ => isFalse (fun h => Val.noConfusion h)
  | .num _, .list _ => isFalse (fun h => Val.noConfusion h)
  | .str _, .none => isFalse (fun h => Val.noConfusion h)
  | .str _, .num _ => isFalse (fun h => Val.noConfusion h)
  | .str a, .str b =>
      match decEq a b with
      | isTrue h => isTrue (by rw [h])
      | isFalse h => isFalse (fun hh => h (Val.noConfusion hh id))
  | .str _, .list _ => isFalse (fun h => Val.noConfusion h)
  | .list _, .none => isFalse (fun h => Val.noConfusion h)
  | .list _, .num _ => isFalse (fun h => Val.noConfusion h)
  | .list _, .str _ => isFalse (fun h => Val.noConfusion h)
  | .list a, .list b =>
      match Val.decEqL a b with
      | isTrue h => isTrue (by rw [h])
      | isFalse h => isFalse (fun hh => h (Val.noConfusion hh id))

/-- Decidable equality on `List Val`. -/
def Val.decEqL : (a b : List Val) → Decidable (a = b)
  | [], [] => isTrue rfl
  | [], _ :: _ => isFalse (fun h => List.noConfusion h)
  | _ :: _, [] => isFalse (fun h => List.noConfusion h)
  | x :: xs, y :: ys =>
      match Val.decEqV x y, Val.decEqL xs ys with
      | isTrue h1, isTrue h2 => isTrue (by rw [h1, h2])
      | isFalse h1, _ => isFalse (fun h => List.noConfusion h (fun he _ => h1 he))
      | isTrue _, isFalse h2 =>
          isFalse (fun h => List.noConfusion h (fun _ ht => h2 ht))

end

instance : DecidableEq Val := Val.decEqV

/-- Python truthiness on `Val`. -/
def truthy : Val → Bool
  | .none => false
  | .num q => !(q == 0)
  | .str s => !(s == "")
  | .list l => !l.isEmpty

/-- Python `a or b`. -/
def pyOr (a b : Val) : Val :=
  if truthy a then a else b

/-- Python `repr` on `Val` (float rendering is approximated for
non-integral rationals, which no claim exercises). -/
def pyRepr : Val → String
  | .none => "None"
  | .num q => if q.den = 1 then toString q.num else toString q
  | .str s => String.singleton aposChar ++ s ++ String.singleton aposChar
  | .list l => "[" ++ String.intercalate ", " (pyReprList l) ++ "]"
where pyReprList : List Val → List String
  | [] => []
  | v :: vs => pyRepr v :: pyReprList vs

/-- Python `str` on `Val` (equals `repr` except on strings). -/
def pyStr : Val → String
  | .str s => s
  | v => pyRepr v

/-- Value of an ASCII digit string. -/
def natVal (l : List Char) : ℕ :=
  l.foldl (fun a c => a * 10 + (c.toNat - 48)) 0

/-- Decimal mantissa accepted by Python `float(str)`: `digits`,
`digits.`, `.digits` or `digits.digits`. -/
def floatCore (l : List Char) : Option ℚ :=
  let ip := l.takeWhile isDigitC
  let rest := l.dropWhile isDigitC
  match rest with
  | [] => if ip.isEmpty then none else some (natVal ip)
  | '.' :: fp =>
      if fp.all isDigitC && (!ip.isEmpty || !fp.isEmpty) then
        some ((natVal ip : ℚ) + (natVal fp : ℚ) / (10 : ℚ) ^ fp.length)
      else none
  | _ => none

/-- Exponent part after `e`/`E`. -/
def floatExp (l : List Char) : Option ℤ :=
  match l with
  | '+' :: ds =>
      if !ds.isEmpty && ds.all isDigitC then some (natVal ds) else none
  | '-' :: ds =>
      if !ds.isEmpty && ds.all isDigitC then some (-(natVal ds : ℤ)) else none
  | ds =>
      if !ds.isEmpty && ds.all isDigitC then some (natVal ds) else none

/-- Python `float(str)` on its decimal fragment: optional surrounding
whitespace, optional sign, decimal mantissa, optional exponent.
(`inf`/`nan` and underscore separators are not modelled; no input
reaching `float` in this program uses them.)  `none` models the
`ValueError` raise. -/
def pyFloatStrL (l : List Char) : Option ℚ :=
  let l1 := stripL l
  let sgn : ℚ × List Char :=
    match l1 with
    | '+' :: r => (1, r)
    | '-' :: r => (-1, r)
    | r => (1, r)
  let mant := sgn.2.takeWhile (fun c => !(c == 'e' || c == 'E'))
  let rest := sgn.2.dropWhile (fun c => !(c == 'e' || c == 'E'))
  match rest with
  | [] => (floatCore mant).map (fun m => sgn.1 * m)
  | _ :: ex =>
      match floatCore mant, floatExp ex with
      | some m, some e => some (sgn.1 * m * (10 : ℚ) ^ e)
      | _, _ => none

/-- Python `int(str)`: optional whitespace, optional sign, digits.
`none` models the `ValueError` raise. -/
def pyIntStrL (l : List Char) : Option ℤ :=
  let l1 := stripL l
  match l1 with
  | '+' :: ds =>
      if !ds.isEmpty && ds.all isDigitC then some (natVal ds) else none
  | '-' :: ds =>
      if !ds.isEmpty && ds.all isDigitC then some (-(natVal ds : ℤ)) else none
  | ds =>
      if !ds.isEmpty && ds.all isDigitC then some (natVal ds) else none

/-- Python `float(x)` on a `Val`: numbers pass through, strings are
parsed, `None` and lists raise (`none`). -/
def pyFloat : Val → Option ℚ
  | .num q => some q
  | .str s => pyFloatStrL s.data
  | _ => none

/-- Python `int(x)` on a `Val`: floats truncate toward zero, strings
must be integer literals, `None` and lists raise (`none`). -/
def pyInt : Val → Option ℤ
  | .num q => some (Int.tdiv q.num q.den)
  | .str s => pyIntStrL s.data
  | _ => none

/-! ## The filter evaluator (`_norm_zone`, `_feature_matches_filters`,
`_apply_filters`) -/

/-- `_norm_zone`: upper-case, drop spaces, canonicalise em-dash,
en-dash, underscore and slash to a plain hyphen. -/
def normZone (z : String) : String :=
  if z = "" then ""
  else
    String.mk (((z.data.map Char.toUpper).filter (fun c => !(c == ' '))).map
      (fun c => if c == '—' || c == '–' || c == '_' || c == '/' then '-' else c))

/-- `zoning.startswith(code)` (`str.startswith`). -/
def strStarts (zoning code : String) : Bool :=
  code.data.isPrefixOf zoning.data

/-- One filter clause: the dict `{"attribute": …, "operator": …,
"value": …}`, each field as fetched by `dict.get` (so possibly `None`). -/
structure Clause where
  attr : Val
  op : Val
  val : Val
deriving DecidableEq

/-- A feature's flat property dict (`feature["properties"]`). -/
abbrev Props := List (String × Val)

/-- `props.get(k)` (`None` for a missing key is modelled by
`Option.none`). -/
def pget (props : Props) (k : String) : Option Val :=
  (props.find? (fun p => p.1 == k)).map (·.2)

/-- `str.strip().upper()` as applied to zoning candidates. -/
def stripUpper (s : String) : String :=
  String.mk ((stripL s.data).map Char.toUpper)

/-- `str.strip().lower()` as applied to community values. -/
def stripLower (s : String) : String :=
  String.mk ((stripL s.data).map Char.toLower)

/-- The per-feature context `_feature_matches_filters` precomputes
before its clause loop. -/
structure Ctx where
  zoning : String
  assessed : Option ℚ
  height : Option ℚ
  year : Option ℤ
  community : String
deriving DecidableEq

/-- `props.get(k)` coerced with `float` inside `try/except`
(`float(props.get(k)) if props.get(k) is not None else None`, exceptions
giving `None`). -/
def numProp (props : Props) (k : String) : Option ℚ :=
  (pget props k).bind pyFloat

/-- `props.get(k)` coerced with `int` inside `try/except`. -/
def intProp (props : Props) (k : String) : Option ℤ :=
  (pget props k).bind pyInt

/-- `x or ""` followed by a string method: yields the string, or `none`
when the Python code would raise `AttributeError` (truthy non-string
value). -/
def orEmptyStr (v : Option Val) : Option String :=
  match pyOr (v.getD Val.none) (Val.str "") with
  | .str s => some s
  | _ => none

/-- The prologue of `_feature_matches_filters`: `none` models the
(clause-independent) `AttributeError` raised when `zoning` or
`community` holds a truthy non-string. -/
def propCtx (props : Props) : Option Ctx :=
  match orEmptyStr (pget props "zoning"), orEmptyStr (pget props "community") with
  | some z, some c =>
      some ⟨normZone z, numProp props "assessed_value",
        numProp props "height_m", intProp props "year", stripLower c⟩
  | _, _ => none

/-- The zoning candidate list `val if isinstance(val, list) else [val]`. -/
def candList : Val → List Val
  | .list l => l
  | v => [v]

/-- One zoning candidate as uppercased by the evaluator:
`str(v).strip().upper()`. -/
def candStr (v : Val) : String :=
  stripUpper (pyStr v)

/-- The body of one iteration of the clause loop: `true` iff the clause
does not reject the feature (the loop `return False`s on the first
`false`). -/
def clauseOk (ctx : Ctx) (f : Clause) : Bool :=
  if f.attr = Val.str "zoning" then
    ((candList f.val).map candStr).any (fun code =>
      let cn := normZone code
      !(cn == "") &&
        ((decide (cn.length ≤ 3) && strStarts ctx.zoning cn) || ctx.zoning == cn))
  else if f.attr = Val.str "assessed_value" then
    match ctx.assessed with
    | Option.none => false
    | some a =>
        match pyFloat f.val with
        | Option.none => false
        | some v =>
            !(decide (f.op = Val.str "<") && !(decide (a < v))) &&
            (!(decide (f.op = Val.str ">") && !(decide (v < a))) &&
              !(decide (f.op = Val.str "=") && !(a == v)))
  else if f.attr = Val.str "height_m" then
    match ctx.height with
    | Option.none => false
    | some h =>
        match pyFloat f.val with
        | Option.none => false
        | some v =>
            !(decide (f.op = Val.str "<") && !(decide (h < v))) &&
            (!(decide (f.op = Val.str ">") && !(decide (v < h))) &&
              !(decide (f.op = Val.str "=") && !(decide (|h - v| < (1 : ℚ) / 1000000))))
  else if f.attr = Val.str "year" then
    match ctx.year with
    | Option.none => false
    | some y =>
        match pyInt f.val with
        | Option.none => false
        | some v =>
            !(decide (f.op = Val.str "<") && !(decide (y < v))) &&
            (!(decide (f.op = Val.str ">") && !(decide (v < y))) &&
              !(decide (f.op = Val.str "=") && !(y == v)))
  else if f.attr = Val.str "community" then
    let target := stripLower (pyStr f.val)
    !(target == "") && ctx.community == target
  else
    true

/-- `_feature_matches_filters(props, filters)`: `none` models a raise in
the prologue; otherwise the loop's early `return False` makes the
verdict `filters.all`. -/
def featureMatchesFilters (props : Props) (filters : List Clause) : Option Bool :=
  (propCtx props).map (fun ctx => filters.all (clauseOk ctx))

/-- `props.get("id")` with the `if fid is None: continue` guard:
`none` when the key is missing or explicitly `None`. -/
def featId (props : Props) : Option Val :=
  match pget props "id" with
  | some v => if v = Val.none then none else some v
  | Option.none => none

/-- `_apply_filters(filters, features)`.  Features are given by their
flat property dict (a Python feature without a usable `"properties"`
dict behaves as the empty dict `[]`).  The matched ids form a Python
set (`Finset Val`); `none` models the exception a bad feature raises,
which aborts the whole evaluation. -/
def applyFilters (filters : List Clause) (features : List Props) :
    Option (Finset Val × ℕ) :=
  match features with
  | [] => some (∅, 0)
  | props :: rest =>
      match featId props with
      | Option.none => applyFilters filters rest
      | some fid =>
          match featureMatchesFilters props filters with
          | Option.none => none
          | some b =>
              (applyFilters filters rest).map (fun r =>
                (if b then insert fid r.1 else r.1, r.2 + 1))

/-! ## The deterministic query parser (`_parse_money`,
`_parse_height_to_m`, `_parse_int`, `_parse_text_to_filters`)

`Except.error ()` models an uncaught Python exception escaping the
parser. -/

/-- `_parse_money(txt)`: anchored match of `moneyRE` on `txt.strip()`;
on a match, `float(group1.replace(",", ""))` — which RAISES a
`ValueError` (modelled `Except.error ()`) when the captured amount uses
dots as thousands separators, e.g. `"1.500.000"` — then the `k`/`m`
suffix multiplier. -/
def parseMoney (txt : List Char) : Except Unit (Option ℚ) :=
  match reMatch moneyRE (stripL txt) with
  | Option.none => .ok none
  | some caps =>
      let g1 := (capL caps 1).getD []
      let g2 := (capL caps 2).getD []
      match pyFloatStrL (g1.filter (fun c => !(c == ','))) with
      | Option.none => .error ()
      | some n =>
          let s := g2.map Char.toLower
          .ok (some (if s = ['k'] then n * 1000
            else if s = ['m'] then n * 1000000 else n))

/-- The `(m.group(2) or "m")` default of `_parse_height_to_m`. -/
def unitOrM (g : Option (List Char)) : List Char :=
  match g with
  | some u => if u = [] then ['m'] else u
  | Option.none => ['m']

/-- The unit `_parse_height_to_m` ends up comparing, lower-cased. -/
def matchedUnit (txt : List Char) : Option (List Char) :=
  (reMatch heightValUnitRE (stripL txt)).map
    (fun caps => (unitOrM (capL caps 2)).map Char.toLower)

/-- `unit in ("ft", "foot", "feet")`. -/
def isFeetUnit (u : List Char) : Bool :=
  u == "ft".data || u == "foot".data || u == "feet".data

/-- `_parse_height_to_m(txt)`: anchored match on `txt.strip()`;
`float(group1)` (whose raise, impossible for this pattern, is modelled
as `Except.error`), unit defaulting to `"m"`, feet converted by
`× 0.3048`. -/
def parseHeightToM (txt : List Char) : Except Unit (Option ℚ) :=
  match reMatch heightValUnitRE (stripL txt) with
  | Option.none => .ok none
  | some caps =>
      match pyFloatStrL ((capL caps 1).getD []) with
      | Option.none => .error ()
      | some v =>
          let unit := (unitOrM (capL caps 2)).map Char.toLower
          .ok (some (if isFeetUnit unit then v * (3048 / 10000 : ℚ) else v))

/-- `_parse_int(txt)`: `int(re.sub(r"[^\d]", "", txt))` inside
`try/except`, so `None` when no digit remains. -/
def parseIntL (txt : List Char) : Option ℤ :=
  let ds := txt.filter isDigitC
  if ds.isEmpty then none else some (natVal ds)

/-- A zoning-block token after `tok.strip().upper()`, kept when it
matches one of the three zoning-code shapes. -/
def zoneToken (tok : List Char) : Option Val :=
  let t := (stripL tok).map Char.toUpper
  if t.isEmpty then none
  else if tokMatch tokHyphRE t || tokMatch tokDigRE t || tokMatch tokBareRE t
  then some (Val.str (String.mk t)) else none

/-- The zoning section of `_parse_text_to_filters` applied to a
captured zoning block. -/
def zoningFiltersOf (zb : List Char) : List Clause :=
  let codes := (pySplit splitSepRE zb).filterMap zoneToken
  if codes.isEmpty then []
  else [⟨Val.str "zoning", Val.str "in", Val.list codes⟩]

/-- The zoning block: the keyword pattern first, else the `in <region>`
fallback (suppressed when the query mentions community/neighbourhood). -/
def zoningBlock (qq : List Char) : Option (List Char) :=
  match groupOf zoningKeyRE 1 qq with
  | some z => some z
  | Option.none =>
      match reSearch inRE qq with
      | some caps =>
          if (reSearch commWordRE qq).isSome then none else capL caps 1
      | Option.none => none

/-- One assessed-value comparison section (`less than`/`under`/`below`
or `greater than`/`over`/`above`). -/
def moneyClauseOf (r : RE) (op : String) (qq : List Char) :
    Except Unit (List Clause) :=
  match groupOf r 1 qq with
  | Option.none => .ok []
  | some g =>
      match parseMoney g with
      | .error e => .error e
      | .ok (some n) => .ok [⟨Val.str "assessed_value", Val.str op, Val.num n⟩]
      | .ok Option.none => .ok []

/-- The `between X and Y` section: both amounts parsed, then
`lo, hi = sorted([n1, n2])`. -/
def betweenFilters (qq : List Char) : Except Unit (List Clause) :=
  match reSearch betweenRE qq with
  | Option.none => .ok []
  | some caps =>
      match parseMoney ((capL caps 1).getD []) with
      | .error e => .error e
      | .ok n1 =>
          match parseMoney ((capL caps 2).getD []) with
          | .error e => .error e
          | .ok n2 =>
              match n1, n2 with
              | some a, some b =>
                  let lohi := if b < a then (b, a) else (a, b)
                  .ok [⟨Val.str "assessed_value", Val.str ">", Val.num lohi.1⟩,
                    ⟨Val.str "assessed_value", Val.str "<", Val.num lohi.2⟩]
              | _, _ => .ok []

/-- One explicit-unit height section: the number and unit groups are
re-joined with a space and fed to `_parse_height_to_m`. -/
def heightUnitClauseOf (r : RE) (op : String) (qq : List Char) :
    Except Unit (List Clause) :=
  match reSearch r qq with
  | Option.none => .ok []
  | some caps =>
      match parseHeightToM (((capL caps 1).getD []) ++ [' '] ++
          ((capL caps 2).getD [])) with
      | .error e => .error e
      | .ok (some h) => .ok [⟨Val.str "height_m", Val.str op, Val.num h⟩]
      | .ok Option.none => .ok []

/-- One floor-count height section: `_parse_int` of the count, value
`fl * 3.0`. -/
def floorsClauseOf (r : RE) (op : String) (qq : List Char) : List Clause :=
  match groupOf r 1 qq with
  | Option.none => []
  | some g =>
      match parseIntL g with
      | some fl => [⟨Val.str "height_m", Val.str op, Val.num (fl * 3)⟩]
      | Option.none => []

/-- One year section: `int(m.group(1))` (always four digits, but a
hypothetical failure would raise, hence `Except`). -/
def yearClauseOf (r : RE) (op : String) (qq : List Char) :
    Except Unit (List Clause) :=
  match groupOf r 1 qq with
  | Option.none => .ok []
  | some g =>
      match pyIntStrL g with
      | some n => .ok [⟨Val.str "year", Val.str op, Val.num n⟩]
      | Option.none => .error ()

/-- The community section: `m.group(1).strip()`, Title-Cased. -/
def commFilters (qq : List Char) : List Clause :=
  match groupOf commRE 1 qq with
  | Option.none => []
  | some g =>
      let name := stripL g
      if name.isEmpty then []
      else [⟨Val.str "community", Val.str "=", Val.str (String.mk (titleL name))⟩]

/-- `_parse_text_to_filters(q)`: lower-cased, stripped query; every
section contributes its clauses in source order.  `Except.error ()`
models an exception escaping the parser (which the `_parse_money` dot
separator slip makes reachable). -/
def parseTextToFilters (q : String) : Except Unit (List Clause) := do
  let qq := lowerL (stripL q.data)
  if qq.isEmpty then
    return []
  let zfilters := match zoningBlock qq with
    | some zb => zoningFiltersOf zb
    | Option.none => []
  let ltf ← moneyClauseOf ltMoneyRE "<" qq
  let gtf ← moneyClauseOf gtMoneyRE ">" qq
  let btf ← betweenFilters qq
  let hgt ← heightUnitClauseOf heightGtRE ">" qq
  let hlt ← heightUnitClauseOf heightLtRE "<" qq
  let fgt := floorsClauseOf floorsGtRE ">" qq
  let flt := floorsClauseOf floorsLtRE "<" qq
  let ygt ← yearClauseOf yearGtRE ">" qq
  let ylt ← yearClauseOf yearLtRE "<" qq
  let cf := commFilters qq
  return zfilters ++ ltf ++ gtf ++ btf ++ hgt ++ hlt ++ fgt ++ flt ++
    ygt ++ ylt ++ cf

/-! ## Definitions used by the claim statements -/

/-- Number of features with a usable identifier (`considered_count`). -/
def consideredCount (fs : List Props) : ℕ :=
  (fs.filter (fun p => (featId p).isSome)).length

/-- Identifiers of features that have an id and match the expression,
in feature order (before set-deduplication). -/
def matchedList (filters : List Clause) (fs : List Props) : List Val :=
  (fs.filter (fun p =>
    (featId p).isSome && ((featureMatchesFilters p filters).getD false))).filterMap featId

/-- The matched-id set of an evaluation. -/
def matchedIds (filters : List Clause) (fs : List Props) : Finset Val :=
  (matchedList filters fs).toFinset

/-- The C2 candidate rule exactly as the specification words it: after
normalisation, a candidate of length at most 3 matches whenever the
feature zoning starts with it, and a longer candidate matches only by
exact equality. -/
def claimZoneCandMatches (zoning : String) (c : Val) : Bool :=
  let cn := normZone (candStr c)
  if cn.length ≤ 3 then strStarts zoning cn else zoning == cn

/-- The zoning candidate strings of a clause value, exactly as the
evaluator builds them. -/
def wantedOf (v : Val) : List String :=
  (candList v).map candStr

/-! ## Lemmas about the evaluator -/

lemma featureMatches_isSome (props : Props) (l : List Clause) :
    (featureMatchesFilters props l).isSome = (propCtx props).isSome := by
  unfold featureMatchesFilters
  cases propCtx props <;> rfl

lemma featureMatches_all (props : Props) (ctx : Ctx) (l : List Clause)
    (h : propCtx props = some ctx) :
    featureMatchesFilters props l = some (l.all (clauseOk ctx)) := by
  unfold featureMatchesFilters
  rw [h]
  rfl

/-- The characterisation of `_apply_filters` when no feature raises. -/
lemma applyFilters_eq (filters : List Clause) (fs : List Props)
    (h : ∀ p ∈ fs, (featId p).isSome → (featureMatchesFilters p filters).isSome) :
    applyFilters filters fs = some (matchedIds filters fs, consideredCount fs) := by
  induction fs with
  | nil => rfl
  | cons p rest ih =>
      have hrest : ∀ q ∈ rest, (featId q).isSome →
          (featureMatchesFilters q filters).isSome :=
        fun q hq => h q (List.mem_cons_of_mem _ hq)
      unfold applyFilters
      cases hid : featId p with
      | none =>
          rw [ih hrest]
          simp [matchedIds, matchedList, consideredCount, List.filter_cons, hid]
      | some fid =>
          have hs := h p (List.mem_cons_self p rest) (by rw [hid]; rfl)
          cases hm : featureMatchesFilters p filters with
          | none => rw [hm] at hs; simp at hs
          | some b =>
              rw [ih hrest]
              cases b with
              | false =>
                  simp [matchedIds, matchedList, consideredCount,
                    List.filter_cons, hid, hm]
              | true =>
                  simp [matchedIds, matchedList, consideredCount,
                    List.filter_cons, List.filterMap_cons, hid, hm]

/-- If `_apply_filters` returned a value, no considered feature raised. -/
lemma applyFilters_some_inv (filters : List Clause) (fs : List Props)
    (r : Finset Val × ℕ) (hr : applyFilters filters fs = some r) :
    ∀ p ∈ fs, (featId p).isSome → (featureMatchesFilters p filters).isSome := by
  induction fs generalizing r with
  | nil => intro p hp; cases hp
  | cons p rest ih =>
      intro q hq hqid
      unfold applyFilters at hr
      cases hid : featId p with
      | none =>
          rw [hid] at hr
          cases hq with
          | head => rw [hid] at hqid; cases hqid
          | tail _ hmem => exact ih r hr q hmem hqid
      | some fid =>
          rw [hid] at hr
          cases hm : featureMatchesFilters p filters with
          | none => rw [hm] at hr; cases hr
          | some b =>
              rw [hm] at hr
              cases hrest : applyFilters filters rest with
              | none => rw [hrest] at hr; cases hr
              | some r2 =>
                  cases hq with
                  | head => rw [hm]; rfl
                  | tail _ hmem => exact ih r2 hrest q hmem hqid

/-- A defined evaluation result is exactly the characterised pair. -/
lemma applyFilters_some_eq (filters : List Clause) (fs : List Props)
    (r : Finset Val × ℕ) (hr : applyFilters filters fs = some r) :
    r = (matchedIds filters fs, consideredCount fs) := by
  have := applyFilters_eq filters fs (applyFilters_some_inv filters fs r hr)
  rw [hr] at this
  exact Option.some.inj this

lemma perm_all (f : Clause → Bool) {l1 l2 : List Clause} (h : l1.Perm l2) :
    l1.all f = l2.all f := by
  induction h with
  | nil => rfl
  | cons x _ ih => simp [List.all_cons, ih]
  | swap x y l => simp [List.all_cons, Bool.and_left_comm]
  | trans _ _ ih1 ih2 => rw [ih1, ih2]

/-- Dropping the always-true guard from the matched-list filter. -/
lemma filterMap_featId_filter (g : Props → Bool) (fs : List Props)
    (h : ∀ p ∈ fs, (featId p).isSome → g p = true) :
    (fs.filter (fun p => (featId p).isSome && g p)).filterMap featId
      = fs.filterMap featId := by
  induction fs with
  | nil => rfl
  | cons p rest ih =>
      have hrest : ∀ q ∈ rest, (featId q).isSome → g q = true :=
        fun q hq => h q (List.mem_cons_of_mem _ hq)
      cases hid : featId p with
      | none =>
          simp [List.filter_cons, List.filterMap_cons, hid, ih hrest]
      | some fid =>
          have hg := h p (List.mem_cons_self p rest) (by rw [hid]; rfl)
          simp [List.filter_cons, List.filterMap_cons, hid, hg, ih hrest]

/-! ## Claim theorems -/

/-- C1: the claim states that `_parse_text_to_filters` never raises and
that a blank query yields `[]`.  The blank-query half holds, but the
parser is NOT total: `_parse_money` matches dot-grouped thousands
(`[0-9]+(?:[.,][0-9]{3})*`) yet only strips commas before calling
`float`, so the query `"under 1.500.000"` reaches
`float("1.500.000")`, which raises `ValueError` and escapes the parser
(modelled by `Except.error ()`). -/
theorem parse_blank_ok_but_dot_grouped_money_raises :
    parseTextToFilters "" = .ok [] ∧ parseTextToFilters "   " = .ok [] ∧
      parseTextToFilters "under 1.500.000" = .error () := by
  refine ⟨rfl, rfl, ?_⟩
  rfl

/-- C4: the clause loop is a pure AND over per-clause verdicts computed
from the precomputed feature context, so any permutation of the clause
list yields the same verdict per feature and the same evaluation
result. -/
theorem clause_order_independent (l1 l2 : List Clause) (hp : l1.Perm l2) :
    (∀ props : Props, featureMatchesFilters props l1 = featureMatchesFilters props l2)
    ∧ (∀ fs : List Props, applyFilters l1 fs = applyFilters l2 fs) := by
  have hpoint : ∀ props : Props,
      featureMatchesFilters props l1 = featureMatchesFilters props l2 := by
    intro props
    unfold featureMatchesFilters
    cases propCtx props with
    | none => rfl
    | some ctx => simp [perm_all (clauseOk ctx) hp]
  refine ⟨hpoint, ?_⟩
  intro fs
  induction fs with
  | nil => rfl
  | cons p rest ih =>
      unfold applyFilters
      rw [hpoint p, ih]

/-- Witness for C4 at a concrete permutation: swapping a year clause
and a community clause does not change the verdict. -/
theorem clause_order_independent_witness :
    featureMatchesFilters [("id", Val.num 1), ("year", Val.num 1980), ("community", Val.str "Downtown")]
        [⟨Val.str "year", Val.str ">", Val.num 1970⟩,
          ⟨Val.str "community", Val.str "=", Val.str "downtown"⟩]
      = featureMatchesFilters [("id", Val.num 1), ("year", Val.num 1980), ("community", Val.str "Downtown")]
        [⟨Val.str "community", Val.str "=", Val.str "downtown"⟩,
          ⟨Val.str "year", Val.str ">", Val.num 1970⟩] :=
  (clause_order_independent _ _
    (List.Perm.swap ⟨Val.str "community", Val.str "=", Val.str "downtown"⟩
      ⟨Val.str "year", Val.str ">", Val.num 1970⟩ [])).1 _

/-- C9: a clause whose `attribute` is none of the five recognised tags
falls through every branch of the loop body, so it never rejects: it
can be removed from any expression without changing any feature's
verdict. -/
theorem unknown_attribute_ignored (c : Clause)
    (h1 : c.attr ≠ Val.str "zoning") (h2 : c.attr ≠ Val.str "assessed_value")
    (h3 : c.attr ≠ Val.str "height_m") (h4 : c.attr ≠ Val.str "year")
    (h5 : c.attr ≠ Val.str "community") :
    (∀ ctx : Ctx, clauseOk ctx c = true)
    ∧ (∀ (props : Props) (l1 l2 : List Clause),
        featureMatchesFilters props (l1 ++ c :: l2)
          = featureMatchesFilters props (l1 ++ l2)) := by
  have hok : ∀ ctx : Ctx, clauseOk ctx c = true := by
    intro ctx
    unfold clauseOk
    rw [if_neg h1, if_neg h2, if_neg h3, if_neg h4, if_neg h5]
  refine ⟨hok, ?_⟩
  intro props l1 l2
  unfold featureMatchesFilters
  cases propCtx props with
  | none => rfl
  | some ctx => simp [List.all_append, List.all_cons, hok ctx]

/-- Witness for C9: a clause tagged `"floors"` is ignored. -/
theorem unknown_attribute_ignored_witness :
    featureMatchesFilters [("id", Val.num 1)]
        ([] ++ ⟨Val.str "floors", Val.str ">", Val.num 3⟩ :: [])
      = featureMatchesFilters [("id", Val.num 1)] ([] ++ []) :=
  (unknown_attribute_ignored ⟨Val.str "floors", Val.str ">", Val.num 3⟩
    (by decide) (by decide) (by decide) (by decide) (by decide)).2 _ [] []

lemma assessed_coercion_fails (ctx : Ctx) (op v : Val)
    (h : ctx.assessed = Option.none ∨ pyFloat v = Option.none) :
    clauseOk ctx ⟨Val.str "assessed_value", op, v⟩ = false := by
  rcases h with h | h
  · simp [clauseOk, h]
  · cases ha : ctx.assessed with
    | none => simp [clauseOk, ha]
    | some a => simp [clauseOk, ha, h]

/-- C6: each numeric branch first coerces the feature's value (absent
or uncoercible giving `Option.none`) and then the clause's own value
inside `try/except`; either failure makes the branch `return False`
before any operator test runs.  The branches are total functions, so no
exception escapes. -/
theorem numeric_coercion_failure_rejects (ctx : Ctx) (op v : Val) :
    ((ctx.assessed = Option.none ∨ pyFloat v = Option.none) →
      clauseOk ctx ⟨Val.str "assessed_value", op, v⟩ = false)
    ∧ ((ctx.height = Option.none ∨ pyFloat v = Option.none) →
      clauseOk ctx ⟨Val.str "height_m", op, v⟩ = false)
    ∧ ((ctx.year = Option.none ∨ pyInt v = Option.none) →
      clauseOk ctx ⟨Val.str "year", op, v⟩ = false)
    ∧ (∀ (props : Props) (b : Bool),
      (numProp props "assessed_value" = Option.none ∨ pyFloat v = Option.none) →
      featureMatchesFilters props [⟨Val.str "assessed_value", op, v⟩] = some b →
      b = false) := by
  refine ⟨assessed_coercion_fails ctx op v, ?_, ?_, ?_⟩
  · intro h
    rcases h with h | h
    · simp [clauseOk, h]
    · cases ha : ctx.height with
      | none => simp [clauseOk, ha]
      | some a => simp [clauseOk, ha, h]
  · intro h
    rcases h with h | h
    · simp [clauseOk, h]
    · cases ha : ctx.year with
      | none => simp [clauseOk, ha]
      | some a => simp [clauseOk, ha, h]
  · intro props b h hm
    cases hctx : propCtx props with
    | none => rw [featureMatchesFilters, hctx] at hm; cases hm
    | some ctx2 =>
        rw [featureMatches_all props ctx2 _ hctx] at hm
        have hb := Option.some.inj hm
        have hassessed : ctx2.assessed = numProp props "assessed_value" := by
          unfold propCtx at hctx
          cases hz : orEmptyStr (pget props "zoning") with
          | none => rw [hz] at hctx; cases hctx
          | some z =>
              cases hc : orEmptyStr (pget props "community") with
              | none => rw [hz, hc] at hctx; cases hctx
              | some cm =>
                  rw [hz, hc] at hctx
                  cases Option.some.inj hctx
                  rfl
        have hfail : ctx2.assessed = Option.none ∨ pyFloat v = Option.none := by
          rcases h with h | h
          · exact Or.inl (hassessed.trans h)
          · exact Or.inr h
        have := assessed_coercion_fails ctx2 op v hfail
        rw [← hb]
        simp [List.all_cons, this]

lemma any_map_congr {α β : Type} (f : α → β) (p : β → Bool) (g : α → Bool)
    (l : List α) (h : ∀ x ∈ l, p (f x) = g x) : (l.map f).any p = l.any g := by
  induction l with
  | nil => rfl
  | cons x xs ih =>
      simp only [List.map_cons, List.any_cons, h x (List.mem_cons_self x xs),
        ih (fun y hy => h y (List.mem_cons_of_mem _ hy))]

lemma isPrefixOf_self (l : List Char) : l.isPrefixOf l = true := by
  induction l with
  | nil => rfl
  | cons c cs ih => simp [List.isPrefixOf, ih]

lemma propCtx_zoning_only (z : String) :
    propCtx [("zoning", Val.str z)]
      = some ⟨normZone z, Option.none, Option.none, Option.none, ""⟩ := by
  by_cases hz : z = ""
  · subst hz; rfl
  · unfold propCtx orEmptyStr
    simp [pget, pyOr, truthy, hz, numProp, intProp, pyFloat, pyInt, stripLower]
    rfl

/-- C2: against a feature whose zoning is `z`, a zoning clause is an OR
over its candidate list, each (nonempty-normalising) candidate matching
by prefix when its normal form has length at most 3 and by exact
equality otherwise; in particular candidate `"RC"` accepts zoning
`"RC-G"` while candidate `"RC-G"` rejects zoning `"RC-GX"`. -/
theorem zoning_clause_or_semantics (z : String) (op : Val) (codes : List Val)
    (h : ∀ c ∈ codes, normZone (candStr c) ≠ "") :
    featureMatchesFilters [("zoning", Val.str z)]
        [⟨Val.str "zoning", op, Val.list codes⟩]
      = some (codes.any (claimZoneCandMatches (normZone z)))
    ∧ featureMatchesFilters [("zoning", Val.str "RC-G")]
        [⟨Val.str "zoning", Val.str "in", Val.list [Val.str "RC"]⟩] = some true
    ∧ featureMatchesFilters [("zoning", Val.str "RC-GX")]
        [⟨Val.str "zoning", Val.str "in", Val.list [Val.str "RC-G"]⟩] = some false := by
  refine ⟨?_, by decide, by decide⟩
  rw [featureMatches_all _ _ _ (propCtx_zoning_only z)]
  congr 1
  simp only [List.all_cons, List.all_nil, Bool.and_true]
  show clauseOk _ _ = _
  unfold clauseOk
  rw [if_pos rfl]
  simp only [candList]
  apply any_map_congr
  intro c hc
  have hcn := h c hc
  have hb : (normZone (candStr c) == "") = false := beq_eq_false_iff_ne.mpr hcn
  by_cases hlen : (normZone (candStr c)).length ≤ 3
  · by_cases heq : normZone z = normZone (candStr c)
    · have hpre : strStarts (normZone z) (normZone (candStr c)) = true := by
        rw [heq]; exact isPrefixOf_self _
      have hzc : (normZone z == normZone (candStr c)) = true := beq_iff_eq.mpr heq
      simp [claimZoneCandMatches, hlen, hb, hpre, hzc]
    · have hzc : (normZone z == normZone (candStr c)) = false :=
        beq_eq_false_iff_ne.mpr heq
      simp [claimZoneCandMatches, hlen, hb, hzc]
  · by_cases heq : normZone z = normZone (candStr c)
    · have hzc : (normZone z == normZone (candStr c)) = true := beq_iff_eq.mpr heq
      simp [claimZoneCandMatches, hlen, hb, hzc]
    · have hzc : (normZone z == normZone (candStr c)) = false :=
        beq_eq_false_iff_ne.mpr heq
      simp [claimZoneCandMatches, hlen, hb, hzc]

/-- Witness for C2 at the spec's own example. -/
theorem zoning_clause_or_semantics_witness :
    featureMatchesFilters [("zoning", Val.str "RC-G")]
        [⟨Val.str "zoning", Val.str "in", Val.list [Val.str "RC"]⟩]
      = some ([Val.str "RC"].any (claimZoneCandMatches (normZone "RC-G"))) :=
  (zoning_clause_or_semantics "RC-G" (Val.str "in") [Val.str "RC"] (by decide)).1

/-- C3: appending a clause to an expression can only shrink the matched
set and leaves `considered_count` unchanged; the empty expression
matches exactly the features that have an id. -/
theorem and_clause_monotone :
    (∀ (E : List Clause) (c : Clause) (fs : List Props) (r1 r2 : Finset Val × ℕ),
        applyFilters E fs = some r1 → applyFilters (E ++ [c]) fs = some r2 →
        r2.1 ⊆ r1.1 ∧ r2.2 = r1.2)
    ∧ (∀ (fs : List Props) (r : Finset Val × ℕ),
        applyFilters [] fs = some r →
        r.1 = (fs.filterMap featId).toFinset ∧ r.2 = consideredCount fs) := by
  constructor
  · intro E c fs r1 r2 h1 h2
    rw [applyFilters_some_eq E fs r1 h1, applyFilters_some_eq (E ++ [c]) fs r2 h2]
    refine ⟨?_, rfl⟩
    intro x hx
    simp only [matchedIds, matchedList, List.mem_toFinset, List.mem_filterMap,
      List.mem_filter, Bool.and_eq_true] at hx ⊢
    obtain ⟨p, ⟨hpfs, hpid, hpm⟩, hfid⟩ := hx
    refine ⟨p, ⟨hpfs, hpid, ?_⟩, hfid⟩
    cases hc : propCtx p with
    | none => rw [featureMatchesFilters, hc] at hpm; cases hpm
    | some ctx =>
        rw [featureMatches_all p ctx _ hc] at hpm
        rw [featureMatches_all p ctx _ hc]
        simp only [Option.getD_some, List.all_append, Bool.and_eq_true] at hpm ⊢
        exact hpm.1
  · intro fs r hr
    rw [applyFilters_some_eq [] fs r hr]
    refine ⟨?_, rfl⟩
    have hsome := applyFilters_some_inv [] fs r hr
    unfold matchedIds matchedList
    rw [filterMap_featId_filter]
    intro p hp hid
    have hs := hsome p hp hid
    cases hc : propCtx p with
    | none => rw [featureMatches_isSome, hc] at hs; cases hs
    | some ctx => rw [featureMatches_all p ctx _ hc]; rfl

/-- Witness for C3: a concrete expression extension on two features. -/
theorem and_clause_monotone_witness :
    ((∅ : Finset Val) ⊆ {Val.str "a", Val.str "b"} ∧ (2 : ℕ) = 2)
    ∧ ({Val.str "a", Val.str "b"} : Finset Val)
        = ([[("id", Val.str "a")], [("id", Val.str "b")]].filterMap featId).toFinset
    ∧ (2 : ℕ) = consideredCount [[("id", Val.str "a")], [("id", Val.str "b")]] :=
  ⟨and_clause_monotone.1 [] ⟨Val.str "assessed_value", Val.str "<", Val.num 0⟩
      [[("id", Val.str "a")], [("id", Val.str "b")]]
      ({Val.str "a", Val.str "b"}, 2) (∅, 2) (by decide) (by decide),
    (and_clause_monotone.2 [[("id", Val.str "a")], [("id", Val.str "b")]]
      ({Val.str "a", Val.str "b"}, 2) (by decide)).1,
    (and_clause_monotone.2 [[("id", Val.str "a")], [("id", Val.str "b")]]
      ({Val.str "a", Val.str "b"}, 2) (by decide)).2⟩

/-- C5: when no considered feature raises, evaluation returns exactly
the set of ids of matching id-bearing features (dedup by id) and counts
every id-bearing feature exactly once; features without an id are
skipped entirely.  The concrete conjunct shows two matching features
sharing one id contributing 2 to the count and one element to the set,
and an id-less feature contributing to neither. -/
theorem apply_filters_considered_and_dedup :
    (∀ (filters : List Clause) (fs : List Props),
        (∀ p ∈ fs, (featId p).isSome → (featureMatchesFilters p filters).isSome) →
        applyFilters filters fs = some (matchedIds filters fs, consideredCount fs))
    ∧ applyFilters [] [[("id", Val.str "A")], [("id", Val.str "A")], []]
        = some ({Val.str "A"}, 2) :=
  ⟨applyFilters_eq, by decide⟩

/-- Witness for C5. -/
theorem apply_filters_considered_and_dedup_witness :
    applyFilters [] [[("id", Val.num 1)], []]
      = some (matchedIds [] [[("id", Val.num 1)], []],
          consideredCount [[("id", Val.num 1)], []]) :=
  apply_filters_considered_and_dedup.1 [] [[("id", Val.num 1)], []] (by decide)

/-- C10: a zoning clause whose candidate list is empty, or all of whose
candidates normalise to the empty string, rejects every feature (the OR
loop finds no acceptable candidate), so any expression containing it
has an empty matched set while `considered_count` is untouched. -/
theorem empty_zoning_candidates_reject (v : Val)
    (h : ∀ c ∈ wantedOf v, normZone c = "") :
    (∀ (ctx : Ctx) (op : Val), clauseOk ctx ⟨Val.str "zoning", op, v⟩ = false)
    ∧ (∀ (op : Val) (E1 E2 : List Clause) (fs : List Props) (r : Finset Val × ℕ),
        applyFilters (E1 ++ ⟨Val.str "zoning", op, v⟩ :: E2) fs = some r →
        r.1 = ∅ ∧ r.2 = consideredCount fs) := by
  have hok : ∀ (ctx : Ctx) (op : Val),
      clauseOk ctx ⟨Val.str "zoning", op, v⟩ = false := by
    intro ctx op
    unfold clauseOk
    rw [if_pos rfl]
    rw [List.any_eq_false]
    intro code hcode
    simp only [List.mem_map] at hcode
    obtain ⟨c, hc, rfl⟩ := hcode
    have := h (candStr c) (List.mem_map_of_mem candStr hc)
    simp [this]
  refine ⟨hok, ?_⟩
  intro op E1 E2 fs r hr
  rw [applyFilters_some_eq _ fs r hr]
  refine ⟨?_, rfl⟩
  unfold matchedIds matchedList
  have hall : ∀ p ∈ fs,
      ((featId p).isSome &&
        ((featureMatchesFilters p
          (E1 ++ ⟨Val.str "zoning", op, v⟩ :: E2)).getD false)) = false := by
    intro p hp
    cases hc : propCtx p with
    | none => simp [featureMatchesFilters, hc]
    | some ctx =>
        rw [featureMatches_all p ctx _ hc]
        simp [List.all_append, List.all_cons, hok ctx op]
  rw [List.filter_eq_nil_iff.mpr (fun p hp => by rw [hall p hp]; exact Bool.false_ne_true)]
  rfl

/-- Witness for C10 at the empty candidate list. -/
theorem empty_zoning_candidates_reject_witness :
    ((∅, 1) : Finset Val × ℕ).1 = ∅
    ∧ ((∅, 1) : Finset Val × ℕ).2 = consideredCount [[("id", Val.num 7)]] :=
  (empty_zoning_candidates_reject (Val.list []) (by simp [wantedOf, candList])).2
    (Val.str "in") [] [] [[("id", Val.num 7)]] (∅, 1) (by decide)

/-- Witness for C6: a string clause value that is not numeric fails all
three numeric branches against a feature with no numeric attributes. -/
theorem numeric_coercion_failure_rejects_witness :
    clauseOk ⟨"", Option.none, Option.none, Option.none, ""⟩
        ⟨Val.str "assessed_value", Val.str "<", Val.str "x"⟩ = false
    ∧ clauseOk ⟨"", Option.none, Option.none, Option.none, ""⟩
        ⟨Val.str "height_m", Val.str "<", Val.str "x"⟩ = false
    ∧ clauseOk ⟨"", Option.none, Option.none, Option.none, ""⟩
        ⟨Val.str "year", Val.str "<", Val.str "x"⟩ = false
    ∧ (false : Bool) = false :=
  ⟨(numeric_coercion_failure_rejects ⟨"", Option.none, Option.none, Option.none, ""⟩
      (Val.str "<") (Val.str "x")).1 (Or.inl rfl),
    (numeric_coercion_failure_rejects ⟨"", Option.none, Option.none, Option.none, ""⟩
      (Val.str "<") (Val.str "x")).2.1 (Or.inl rfl),
    (numeric_coercion_failure_rejects ⟨"", Option.none, Option.none, Option.none, ""⟩
      (Val.str "<") (Val.str "x")).2.2.1 (Or.inl rfl),
    (numeric_coercion_failure_rejects ⟨"", Option.none, Option.none, Option.none, ""⟩
      (Val.str "<") (Val.str "x")).2.2.2 [] false (Or.inl rfl) (by decide)⟩

lemma parseMoney_400k : parseMoney ("400k".data) = .ok (some 400000) := by
  have h0 : parseMoney ("400k".data)
      = .ok (some ((1 : ℚ) * ((400 : ℕ) : ℚ) * 1000)) := rfl
  rw [h0]
  norm_num

lemma parseMoney_600k : parseMoney ("600k".data) = .ok (some 600000) := by
  have h0 : parseMoney ("600k".data)
      = .ok (some ((1 : ℚ) * ((600 : ℕ) : ℚ) * 1000)) := rfl
  rw [h0]
  norm_num

lemma pyFloatStrL_100 : pyFloatStrL ("100".data) = some 100 := by
  have h0 : pyFloatStrL ("100".data) = some ((1 : ℚ) * ((100 : ℕ) : ℚ)) := rfl
  rw [h0]
  norm_num

/-- C7: `parse("between $400k and $600k")` yields exactly the two
clauses `{assessed_value, >, 400000}` and `{assessed_value, <, 600000}`;
and in general, whenever the `between` pattern captures two amounts that
both parse, the `>` clause receives the smaller and the `<` clause the
larger (`sorted` before assignment). -/
theorem between_range_sorted :
    parseTextToFilters "between $400k and $600k"
      = .ok [⟨Val.str "assessed_value", Val.str ">", Val.num 400000⟩,
          ⟨Val.str "assessed_value", Val.str "<", Val.num 600000⟩]
    ∧ (∀ (qq g1 g2 : List Char) (n1 n2 : ℚ),
        groupOf betweenRE 1 qq = some g1 → groupOf betweenRE 2 qq = some g2 →
        parseMoney g1 = .ok (some n1) → parseMoney g2 = .ok (some n2) →
        betweenFilters qq
          = .ok [⟨Val.str "assessed_value", Val.str ">", Val.num (min n1 n2)⟩,
              ⟨Val.str "assessed_value", Val.str "<", Val.num (max n1 n2)⟩]) := by
  constructor
  · have h0 : parseTextToFilters "between $400k and $600k"
        = Except.bind (betweenFilters ("between $400k and $600k".data))
            (fun btf =>
              Except.ok (btf ++ [] ++ [] ++ [] ++ [] ++ [] ++ [] ++ [])) := rfl
    have h2 : betweenFilters ("between $400k and $600k".data)
        = Except.ok [⟨Val.str "assessed_value", Val.str ">",
            Val.num (if (1 : ℚ) * ((600 : ℕ) : ℚ) * 1000 < (1 : ℚ) * ((400 : ℕ) : ℚ) * 1000
              then ((1 : ℚ) * ((600 : ℕ) : ℚ) * 1000, (1 : ℚ) * ((400 : ℕ) : ℚ) * 1000)
              else ((1 : ℚ) * ((400 : ℕ) : ℚ) * 1000, (1 : ℚ) * ((600 : ℕ) : ℚ) * 1000)).1⟩,
          ⟨Val.str "assessed_value", Val.str "<",
            Val.num (if (1 : ℚ) * ((600 : ℕ) : ℚ) * 1000 < (1 : ℚ) * ((400 : ℕ) : ℚ) * 1000
              then ((1 : ℚ) * ((600 : ℕ) : ℚ) * 1000, (1 : ℚ) * ((400 : ℕ) : ℚ) * 1000)
              else ((1 : ℚ) * ((400 : ℕ) : ℚ) * 1000, (1 : ℚ) * ((600 : ℕ) : ℚ) * 1000)).2⟩] := rfl
    have hcond : ¬((1 : ℚ) * ((600 : ℕ) : ℚ) * 1000 < (1 : ℚ) * ((400 : ℕ) : ℚ) * 1000) := by
      norm_num
    rw [h0, h2]
    simp only [if_neg hcond, Except.bind]
    norm_num
  · intro qq g1 g2 n1 n2 hg1 hg2 hm1 hm2
    unfold groupOf at hg1 hg2
    cases hs : reSearch betweenRE qq with
    | none => rw [hs] at hg1; cases hg1
    | some caps =>
        rw [hs] at hg1 hg2
        simp only [Option.some_bind] at hg1 hg2
        unfold betweenFilters
        simp only [hs, hg1, hg2, Option.getD_some, hm1, hm2]
        rcases le_or_lt n1 n2 with hle | hlt
        · have hnb : ¬(n2 < n1) := not_lt.mpr hle
          simp [hnb, min_eq_left hle, max_eq_right hle]
        · simp [hlt, min_eq_right (le_of_lt hlt), max_eq_left (le_of_lt hlt)]

/-- Witness for C7, discharging the general part's hypotheses at the
spec's example. -/
theorem between_range_sorted_witness :
    betweenFilters ("between $400k and $600k".data)
      = .ok [⟨Val.str "assessed_value", Val.str ">", Val.num (min 400000 600000)⟩,
          ⟨Val.str "assessed_value", Val.str "<", Val.num (max 400000 600000)⟩] :=
  between_range_sorted.2 ("between $400k and $600k".data)
    ("400k".data) ("600k".data) 400000 600000 rfl rfl parseMoney_400k parseMoney_600k

/-- C8: `parse("buildings over 100 feet")` yields the clause
`{height_m, >, 30.48}` (together with the independently detected
assessed-value clause the same phrase produces); in general, whenever
`_parse_height_to_m`'s own pattern captures a number that parses to `v`
and a feet-family unit, the result is `v × 0.3048`, and any other
(meter-family or missing) unit passes `v` through unchanged. -/
theorem height_unit_conversion :
    parseTextToFilters "buildings over 100 feet"
      = .ok [⟨Val.str "assessed_value", Val.str ">", Val.num 100⟩,
          ⟨Val.str "height_m", Val.str ">", Val.num (3048 / 100)⟩]
    ∧ (∀ (txt g1 u : List Char) (v : ℚ),
        matchGroup heightValUnitRE 1 (stripL txt) = some g1 →
        matchedUnit txt = some u →
        pyFloatStrL g1 = some v →
        (isFeetUnit u = true → parseHeightToM txt = .ok (some (v * (3048 / 10000)))) ∧
        (isFeetUnit u = false → parseHeightToM txt = .ok (some v))) := by
  constructor
  · have h0 : parseTextToFilters "buildings over 100 feet"
        = .ok [⟨Val.str "assessed_value", Val.str ">",
              Val.num ((1 : ℚ) * ((100 : ℕ) : ℚ))⟩,
            ⟨Val.str "height_m", Val.str ">",
              Val.num ((1 : ℚ) * ((100 : ℕ) : ℚ) * (3048 / 10000))⟩] := rfl
    rw [h0]
    norm_num
  · intro txt g1 u v hg hu hv
    unfold matchGroup at hg
    unfold matchedUnit at hu
    cases hm : reMatch heightValUnitRE (stripL txt) with
    | none => rw [hm] at hg; cases hg
    | some caps =>
        rw [hm] at hg hu
        simp only [Option.some_bind] at hg
        have hu2 : (unitOrM (capL caps 2)).map Char.toLower = u := Option.some.inj hu
        unfold parseHeightToM
        simp only [hm, hg, Option.getD_some, hv, hu2]
        constructor <;> intro hf <;> simp [hf]

/-- Witness for C8 at `"100 feet"`: the feet branch converts. -/
theorem height_unit_conversion_witness :
    parseHeightToM ("100 feet".data) = .ok (some (100 * (3048 / 10000))) :=
  (height_unit_conversion.2 ("100 feet".data) ("100".data) ("feet".data) 100
    rfl rfl pyFloatStrL_100).1 rfl

end MasivFilters
